import Mathlib

/-!
Verification of the vibe-chat end-to-end group-encryption core.

This file gives a shallow embedding of the parts of the repository that the
verified properties talk about:

* `apps/web/src/lib/crypto.ts` — the base64 codec, the AES-GCM message
  wrapper (`encryptMessage` / `decryptMessage`), the ECDH channel-key wrap
  (`encryptChannelKeyForRecipient` / `decryptChannelKey`) and identity-key
  generation (`generateIdentityKeys`).
* `apps/web/src/lib/keyStore.ts` — the Dexie-backed local key store
  (`hasChannelKey`).
* `apps/web/src/lib/channelCrypto.ts` — `ensureChannelKey`,
  `distributeChannelKey`, `canEncryptInChannel`.
* `apps/server/src/websocket/index.ts` — the realtime transport
  (`handleMessage`, `handleDisconnect`, `broadcastToChannel`).
* `apps/server/src/routes/auth.ts` — the key-bundle endpoint
  `GET /users/:userId/keys`.
* the channel routes — `POST /sender-keys` and
  `GET /:channelId/sender-keys/:userId`.

Byte sequences are `List Nat` with every element `< 256`.  Platform
primitives (WebCrypto AES-GCM, ECDH derivation, TextEncoder) are not
repository code; they enter as explicit function parameters, and the
theorems assume exactly the contracts the platform documents (AEAD
decryption inverts encryption, ECDH agreement is symmetric, the text codec
is lossless).  Everything written in the repository itself is translated
directly.
-/

/-! ## Base64 codec

`arrayBufferToBase64` / `base64ToArrayBuffer` in `crypto.ts` convert a byte
array to a base64 string via `btoa` and back via `atob`.  The base64
alphabet is a fixed bijection between 6-bit values and characters, so the
model represents the base64 string by its list of 6-bit values (one entry
per base64 character; `=` padding carries no value and is dropped by
`atob`, so it is not represented). -/

/-- Model of `arrayBufferToBase64` (crypto.ts lines 9-16): bytes to base64
characters, three bytes per four characters, short final group for a
length that is not a multiple of three. -/
def arrayBufferToBase64 : List Nat → List Nat
  | b0 :: b1 :: b2 :: rest =>
      b0 / 4 :: ((b0 % 4) * 16 + b1 / 16) :: ((b1 % 16) * 4 + b2 / 64) :: (b2 % 64) ::
        arrayBufferToBase64 rest
  | [b0, b1] => [b0 / 4, (b0 % 4) * 16 + b1 / 16, (b1 % 16) * 4]
  | [b0] => [b0 / 4, (b0 % 4) * 16]
  | [] => []

/-- Model of `base64ToArrayBuffer` (crypto.ts lines 18-25): base64
characters back to bytes, four characters per three bytes, short final
group. -/
def base64ToArrayBuffer : List Nat → List Nat
  | s0 :: s1 :: s2 :: s3 :: rest =>
      (s0 * 4 + s1 / 16) :: ((s1 % 16) * 16 + s2 / 4) :: ((s2 % 4) * 64 + s3) ::
        base64ToArrayBuffer rest
  | [s0, s1, s2] => [s0 * 4 + s1 / 16, (s1 % 16) * 16 + s2 / 4]
  | [s0, s1] => [s0 * 4 + s1 / 16]
  | _ => []

theorem base64_roundtrip (l : List Nat) (h : ∀ b ∈ l, b < 256) :
    base64ToArrayBuffer (arrayBufferToBase64 l) = l := by
  induction l using arrayBufferToBase64.induct with
  | case1 b0 b1 b2 rest ih =>
      have h0 : b0 < 256 := h b0 (by simp)
      have h1 : b1 < 256 := h b1 (by simp)
      have h2 : b2 < 256 := h b2 (by simp)
      have hrest : ∀ b ∈ rest, b < 256 := fun b hb => h b (by simp [hb])
      simp only [arrayBufferToBase64, base64ToArrayBuffer, List.cons.injEq, and_true]
      refine ⟨by omega, by omega, by omega, ih hrest⟩
  | case2 b0 b1 =>
      have h0 : b0 < 256 := h b0 (by simp)
      have h1 : b1 < 256 := h b1 (by simp)
      simp only [arrayBufferToBase64, base64ToArrayBuffer, List.cons.injEq, and_true]
      refine ⟨by omega, by omega⟩
  | case3 b0 =>
      have h0 : b0 < 256 := h b0 (by simp)
      simp only [arrayBufferToBase64, base64ToArrayBuffer, List.cons.injEq, and_true]
      omega
  | case4 => rfl

/-! ## AES-GCM message wrapper (crypto.ts lines 148-196)

`encryptMessage` text-encodes the plaintext, draws a random 12-byte IV,
calls `crypto.subtle.encrypt` with AES-GCM, prepends the IV to the
ciphertext-plus-tag and base64-encodes the whole blob.  `decryptMessage`
base64-decodes, splits at byte 12, calls `crypto.subtle.decrypt` and
text-decodes.  The AES-GCM primitive and the text codec are platform
calls, passed here as parameters:

* `aeadEncrypt key iv data` — ciphertext plus tag;
* `aeadDecrypt key iv blob` — `none` models the rejection thrown on tag
  verification failure;
* `textEncode` / `textDecode` — `TextEncoder` / `TextDecoder`.

The plaintext type `Msg` is abstract: `String` for chat messages, a
base64 character list when the wrapper carries an exported key. -/

/-- Model of `encryptMessage` (crypto.ts lines 148-171).  The random IV is
a parameter, since the model is deterministic. -/
def encryptMessage {Msg : Type} (aeadEncrypt : List Nat → List Nat → List Nat → List Nat)
    (textEncode : Msg → List Nat) (iv : List Nat) (message : Msg) (key : List Nat) :
    List Nat :=
  arrayBufferToBase64 (iv ++ aeadEncrypt key iv (textEncode message))

/-- Model of `decryptMessage` (crypto.ts lines 177-196): split the decoded
blob at byte 12 into IV and ciphertext, then decrypt. -/
def decryptMessage {Msg : Type} (aeadDecrypt : List Nat → List Nat → List Nat → Option (List Nat))
    (textDecode : List Nat → Msg) (ciphertextB64 : List Nat) (key : List Nat) :
    Option Msg :=
  let combined := base64ToArrayBuffer ciphertextB64
  let iv := combined.take 12
  let ciphertext := combined.drop 12
  (aeadDecrypt key iv ciphertext).map textDecode

/-- Shared round-trip argument for the AES-GCM wrapper: if the platform
AEAD inverts itself on the produced ciphertext and the text codec is
lossless on the given plaintext, the wrapper round-trips. -/
theorem decryptMessage_encryptMessage_aux {Msg : Type}
    (aeadEncrypt : List Nat → List Nat → List Nat → List Nat)
    (aeadDecrypt : List Nat → List Nat → List Nat → Option (List Nat))
    (textEncode : Msg → List Nat) (textDecode : List Nat → Msg)
    (iv key : List Nat) (p : Msg)
    (hivlen : iv.length = 12)
    (hivb : ∀ b ∈ iv, b < 256)
    (hctb : ∀ b ∈ aeadEncrypt key iv (textEncode p), b < 256)
    (hdec : aeadDecrypt key iv (aeadEncrypt key iv (textEncode p)) = some (textEncode p))
    (htext : textDecode (textEncode p) = p) :
    decryptMessage aeadDecrypt textDecode
      (encryptMessage aeadEncrypt textEncode iv p key) key = some p := by
  have hbytes : ∀ b ∈ iv ++ aeadEncrypt key iv (textEncode p), b < 256 := by
    intro b hb
    rcases List.mem_append.1 hb with h | h
    · exact hivb b h
    · exact hctb b h
  simp only [decryptMessage, encryptMessage, base64_roundtrip _ hbytes,
    List.take_left' hivlen, List.drop_left' hivlen, hdec, Option.map_some', htext]

/-- Claim C2: for every plaintext string `p` and AES-GCM key `k`,
`decryptMessage (encryptMessage p k) k = p` — the blob is a random 12-byte
IV prepended to the AEAD ciphertext-plus-tag, base64-encoded, and
decryption inverts the whole pipeline.  The hypotheses are the platform
contracts: the IV drawn by `crypto.getRandomValues` has 12 bytes, AES-GCM
decryption inverts encryption under the same key and IV, and the
`TextEncoder` / `TextDecoder` pair is lossless. -/
theorem decryptMessage_encryptMessage
    (aeadEncrypt : List Nat → List Nat → List Nat → List Nat)
    (aeadDecrypt : List Nat → List Nat → List Nat → Option (List Nat))
    (textEncode : String → List Nat) (textDecode : List Nat → String)
    (iv key : List Nat) (p : String)
    (hivlen : iv.length = 12)
    (hivb : ∀ b ∈ iv, b < 256)
    (hctb : ∀ b ∈ aeadEncrypt key iv (textEncode p), b < 256)
    (hdec : aeadDecrypt key iv (aeadEncrypt key iv (textEncode p)) = some (textEncode p))
    (htext : textDecode (textEncode p) = p) :
    decryptMessage aeadDecrypt textDecode
      (encryptMessage aeadEncrypt textEncode iv p key) key = some p :=
  decryptMessage_encryptMessage_aux aeadEncrypt aeadDecrypt textEncode textDecode
    iv key p hivlen hivb hctb hdec htext

/-- Concrete instance of the C2 round-trip, with a transparent AEAD model
and the character-code text codec, on the plaintext `"hi"`. -/
theorem decryptMessage_encryptMessage_witness :
    decryptMessage (fun _ _ c => some c) (fun l => String.mk (l.map Char.ofNat))
      (encryptMessage (fun _ _ d => d) (fun s => s.data.map Char.toNat)
        (List.replicate 12 0) "hi" [1]) [1] = some "hi" :=
  decryptMessage_encryptMessage (fun _ _ d => d) (fun _ _ c => some c)
    (fun s => s.data.map Char.toNat) (fun l => String.mk (l.map Char.ofNat))
    (List.replicate 12 0) [1] "hi" (by decide) (by decide) (by decide) (by decide)
    (by decide)

/-! ## Channel-key wrap (crypto.ts lines 287-320)

`encryptChannelKeyForRecipient` imports the recipient public key from
base64, derives the pairwise AES key via ECDH (`deriveSharedKey`, a
platform call passed as a parameter), exports the channel key to a base64
string and encrypts that string with `encryptMessage`.  `decryptChannelKey`
is the mirror image.  The base64 string of the raw key is ASCII, one byte
per character, so the `TextEncoder` step inside `encryptMessage` is the
identity on the character list. -/

/-- Model of `exportAesKey` (crypto.ts lines 125-128). -/
def exportAesKey (key : List Nat) : List Nat := arrayBufferToBase64 key

/-- Model of `importAesKey` (crypto.ts lines 133-142). -/
def importAesKey (keyB64 : List Nat) : List Nat := base64ToArrayBuffer keyB64

/-- Model of `importPublicKey` (crypto.ts lines 70-79): decode the base64
key material and hand it to `crypto.subtle.importKey`, modelled by the
parameter `importPubRaw`. -/
def importPublicKey {Pub : Type} (importPubRaw : List Nat → Pub)
    (publicKeyB64 : List Nat) : Pub :=
  importPubRaw (base64ToArrayBuffer publicKeyB64)

/-- Model of `encryptChannelKeyForRecipient` (crypto.ts lines 287-301). -/
def encryptChannelKeyForRecipient {Priv Pub : Type}
    (aeadEncrypt : List Nat → List Nat → List Nat → List Nat)
    (importPubRaw : List Nat → Pub) (deriveSharedKey : Priv → Pub → List Nat)
    (iv : List Nat) (channelKey : List Nat) (senderPrivateKey : Priv)
    (recipientPublicKeyB64 : List Nat) : List Nat :=
  let recipientPublicKey := importPublicKey importPubRaw recipientPublicKeyB64
  let sharedKey := deriveSharedKey senderPrivateKey recipientPublicKey
  let channelKeyRaw := exportAesKey channelKey
  encryptMessage aeadEncrypt (fun m => m) iv channelKeyRaw sharedKey

/-- Model of `decryptChannelKey` (crypto.ts lines 306-320). -/
def decryptChannelKey {Priv Pub : Type}
    (aeadDecrypt : List Nat → List Nat → List Nat → Option (List Nat))
    (importPubRaw : List Nat → Pub) (deriveSharedKey : Priv → Pub → List Nat)
    (encryptedChannelKey : List Nat) (recipientPrivateKey : Priv)
    (senderPublicKeyB64 : List Nat) : Option (List Nat) :=
  let senderPublicKey := importPublicKey importPubRaw senderPublicKeyB64
  let sharedKey := deriveSharedKey recipientPrivateKey senderPublicKey
  (decryptMessage aeadDecrypt (fun m => m) encryptedChannelKey sharedKey).map importAesKey

/-- Claim C3: wrapping a channel key `K` with A's private key and B's
public key and unwrapping with B's private key and A's public key recovers
`K`.  `hsym` is the ECDH agreement symmetry the platform guarantees:
deriving from A's private and B's public keys equals deriving from B's
private and A's public keys; the remaining hypotheses are the AES-GCM
platform contract as in the message round-trip. -/
theorem decryptChannelKey_encryptChannelKeyForRecipient {Priv Pub : Type}
    (aeadEncrypt : List Nat → List Nat → List Nat → List Nat)
    (aeadDecrypt : List Nat → List Nat → List Nat → Option (List Nat))
    (importPubRaw : List Nat → Pub) (deriveSharedKey : Priv → Pub → List Nat)
    (iv channelKey : List Nat) (aPriv bPriv : Priv) (aPubB64 bPubB64 : List Nat)
    (hsym : deriveSharedKey aPriv (importPublicKey importPubRaw bPubB64) =
            deriveSharedKey bPriv (importPublicKey importPubRaw aPubB64))
    (hivlen : iv.length = 12)
    (hivb : ∀ b ∈ iv, b < 256)
    (hck : ∀ b ∈ channelKey, b < 256)
    (hctb : ∀ b ∈ aeadEncrypt (deriveSharedKey aPriv (importPublicKey importPubRaw bPubB64))
        iv (exportAesKey channelKey), b < 256)
    (hdec : aeadDecrypt (deriveSharedKey aPriv (importPublicKey importPubRaw bPubB64)) iv
        (aeadEncrypt (deriveSharedKey aPriv (importPublicKey importPubRaw bPubB64)) iv
          (exportAesKey channelKey)) = some (exportAesKey channelKey)) :
    decryptChannelKey aeadDecrypt importPubRaw deriveSharedKey
      (encryptChannelKeyForRecipient aeadEncrypt importPubRaw deriveSharedKey
        iv channelKey aPriv bPubB64) bPriv aPubB64 = some channelKey := by
  have h := decryptMessage_encryptMessage_aux aeadEncrypt aeadDecrypt
    (fun (m : List Nat) => m) (fun (m : List Nat) => m) iv
    (deriveSharedKey aPriv (importPublicKey importPubRaw bPubB64))
    (exportAesKey channelKey) hivlen hivb hctb hdec rfl
  simp only [decryptChannelKey, encryptChannelKeyForRecipient, ← hsym, h,
    Option.map_some']
  simp only [importAesKey, exportAesKey, base64_roundtrip _ hck]

/-- Concrete instance of the C3 key-wrap symmetry: transparent AEAD model,
`deriveSharedKey a b = [a + b]` (symmetric), key pairs `3` and `5`
published as base64-encoded single bytes, channel key `[7]`. -/
theorem decryptChannelKey_encryptChannelKeyForRecipient_witness :
    decryptChannelKey (fun _ _ c => some c) (fun l => l.headD 0)
      (fun a b => [a + b])
      (encryptChannelKeyForRecipient (fun _ _ d => d) (fun l => l.headD 0)
        (fun a b => [a + b]) (List.replicate 12 0) [7] 3
        (arrayBufferToBase64 [5])) 5 (arrayBufferToBase64 [3]) = some [7] :=
  decryptChannelKey_encryptChannelKeyForRecipient (fun _ _ d => d)
    (fun _ _ c => some c) (fun l => l.headD 0) (fun a b => [a + b])
    (List.replicate 12 0) [7] 3 5 (arrayBufferToBase64 [3]) (arrayBufferToBase64 [5])
    (by decide) (by decide) (by decide) (by decide) (by decide) (by decide)

/-! ## Identity-key generation (crypto.ts lines 201-282)

`generateIdentityKeys` makes three kinds of key pairs by calling
`crypto.subtle.generateKey`: the ECDH identity pair, the ECDH signed-prekey
pair, and — only to sign the prekey — a fresh ECDSA pair that is dropped on
the spot.  The model numbers the generated pairs in call order
(`0` identity, `1` signed prekey, `2` the ECDSA signing pair, `3`-`12` the
ten one-time prekeys); distinct numbers stand for the independently drawn,
almost-surely distinct key pairs.  An ECDSA signature verifies against a
public key exactly when it was produced with the private half of that same
pair and over the same data, which is what `verifySignature` states. -/

/-- A generated key pair, identified by its draw number; both halves carry
the pair's identity. -/
structure ModelKeyPair where
  publicKey : Nat
  privateKey : Nat
deriving DecidableEq, Repr

/-- The key pair returned by the n-th `generateKey` call. -/
def freshKeyPair (n : Nat) : ModelKeyPair := ⟨n, n⟩

/-- Model of an ECDSA signature: the signed data and the pair the signing
private key belongs to. -/
structure ModelSignature where
  data : Nat
  signerPair : Nat
deriving DecidableEq, Repr

/-- Model of `signData` (crypto.ts lines 212-219). -/
def signData (data : Nat) (privateKey : Nat) : ModelSignature := ⟨data, privateKey⟩

/-- Model of ECDSA verification: the signature checks out against a public
key iff it was made with the matching private key over the same data. -/
def verifySignature (data : Nat) (sig : ModelSignature) (publicKey : Nat) : Bool :=
  sig.data == data && sig.signerPair == publicKey

/-- The private material returned by `generateIdentityKeys`
(the `keys` field). -/
structure IdentityKeysModel where
  identityKeyPair : ModelKeyPair
  signedPreKeyPair : ModelKeyPair
  signedPreKeySignature : ModelSignature
  preKeyPairs : List (Nat × ModelKeyPair)
deriving DecidableEq, Repr

/-- The public bundle returned by `generateIdentityKeys`
(the `publicBundle` field). -/
structure PublicBundleModel where
  identityKeyPublic : Nat
  signedPreKeyPublic : Nat
  signedPreKeySignature : ModelSignature
  preKeys : List (Nat × Nat)
deriving DecidableEq, Repr

/-- Model of `generateIdentityKeys` (crypto.ts lines 224-282), with the
`generateKey` draws numbered in program order: identity pair first, signed
prekey second, then the fresh ECDSA signing pair the source creates just
for the signature (its private key is used once and discarded, its public
key is never returned), then the ten one-time prekeys. -/
def generateIdentityKeys : IdentityKeysModel × PublicBundleModel :=
  let identityKeyPair := freshKeyPair 0
  let signedPreKeyPair := freshKeyPair 1
  let signingKeyPair := freshKeyPair 2
  let signature := signData signedPreKeyPair.publicKey signingKeyPair.privateKey
  let preKeyPairs := (List.range 10).map (fun i => (i, freshKeyPair (3 + i)))
  ( { identityKeyPair := identityKeyPair
      signedPreKeyPair := signedPreKeyPair
      signedPreKeySignature := signature
      preKeyPairs := preKeyPairs },
    { identityKeyPublic := identityKeyPair.publicKey
      signedPreKeyPublic := signedPreKeyPair.publicKey
      signedPreKeySignature := signature
      preKeys := preKeyPairs.map (fun p => (p.1, p.2.publicKey)) } )

/-- Claim C9: the signed-prekey signature in the bundle produced by
`generateIdentityKeys` is NOT verifiable against the owner's identity key.
The source signs with a freshly generated ECDSA pair that is immediately
discarded (its own comment says the prekey is signed with the identity
key), so a relying party holding the bundle's identity public key rejects
the signature; the signing pair's identity (`2`) moreover appears nowhere
in the returned material.  This refutes the claim on the code, supporting
the code_bug verdict. -/
theorem generateIdentityKeys_signature_unverifiable :
    verifySignature (generateIdentityKeys.2.signedPreKeyPublic)
        (generateIdentityKeys.2.signedPreKeySignature)
        (generateIdentityKeys.2.identityKeyPublic) = false ∧
    (generateIdentityKeys.2.signedPreKeySignature).signerPair ≠
        generateIdentityKeys.1.identityKeyPair.privateKey ∧
    (generateIdentityKeys.2.signedPreKeySignature).signerPair ≠
        generateIdentityKeys.1.signedPreKeyPair.privateKey ∧
    ∀ p ∈ generateIdentityKeys.1.preKeyPairs,
        (generateIdentityKeys.2.signedPreKeySignature).signerPair ≠ p.2.privateKey := by
  refine ⟨by decide, by decide, by decide, ?_⟩
  decide

/-! ## Local key store (keyStore.ts)

Dexie's `Table.get` resolves to the stored object, or to `undefined` when
no row matches — never to `null`.  `hasChannelKey` (keyStore.ts lines
146-149) nevertheless tests `stored !== null`.  The model keeps the
JavaScript distinction: a lookup yields either `undefined` or an object,
and the strict comparison against `null` is evaluated faithfully —
`undefined !== null` is true and `object !== null` is true. -/

/-- Result of a Dexie `get`: `undefined` when the key is absent, the
stored object otherwise. -/
inductive DexieResult (α : Type)
  | undef
  | obj (value : α)
deriving DecidableEq, Repr

/-- Dexie `get` over the channelKeys table, keyed by `channelId`. -/
def dexieGet {α : Type} : List (String × α) → String → DexieResult α
  | [], _ => .undef
  | (k, v) :: rest, key => if k = key then .obj v else dexieGet rest key

/-- JavaScript strict equality of a Dexie result against `null`:
`undefined === null` is false, and an object is never `null`. -/
def strictEqNull {α : Type} : DexieResult α → Bool
  | .undef => false
  | .obj _ => false

/-- Model of `hasChannelKey` (keyStore.ts lines 146-149): the faithful
translation of `stored !== null`. -/
def hasChannelKey (channelKeys : List (String × List Nat)) (channelId : String) : Bool :=
  !(strictEqNull (dexieGet channelKeys channelId))

/-- Model of `canEncryptInChannel` (channelCrypto.ts lines 199-201). -/
def canEncryptInChannel (channelKeys : List (String × List Nat))
    (channelId : String) : Bool :=
  hasChannelKey channelKeys channelId

/-- Claim C10: for a channel with no stored key, `hasChannelKey` returns
`true` — the missing-entry result is `undefined`, and the code compares it
against `null` with `!==`, which holds — and consequently
`canEncryptInChannel` returns `true` for every store and every channel,
never `false`. -/
theorem canEncryptInChannel_always_true :
    (∀ (channelKeys : List (String × List Nat)) (channelId : String),
      dexieGet channelKeys channelId = .undef →
      hasChannelKey channelKeys channelId = true) ∧
    (∀ (channelKeys : List (String × List Nat)) (channelId : String),
      canEncryptInChannel channelKeys channelId = true) := by
  constructor
  · intro channelKeys channelId h
    simp [hasChannelKey, h, strictEqNull]
  · intro channelKeys channelId
    cases hres : dexieGet channelKeys channelId with
    | undef => simp [canEncryptInChannel, hasChannelKey, hres, strictEqNull]
    | obj v => simp [canEncryptInChannel, hasChannelKey, hres, strictEqNull]

/-- Concrete instance of C10: the empty store has no key for channel
`"c"`, yet `hasChannelKey` and `canEncryptInChannel` report `true`. -/
theorem canEncryptInChannel_always_true_witness :
    hasChannelKey [] "c" = true ∧ canEncryptInChannel [] "c" = true :=
  ⟨canEncryptInChannel_always_true.1 [] "c" (by decide),
   canEncryptInChannel_always_true.2 [] "c"⟩

/-! ## Realtime transport (apps/server/src/websocket/index.ts)

The server keeps two process-wide registries: `channelConnections`
(channelId to the Set of subscribed sockets) and `socketUsers` (socket to
`{userId, channelIds}`).  Sockets are numbered; JavaScript `Map`s become
association lists and `Set`s become duplicate-free lists in insertion
order.  Database calls made by the handlers are supplied through
`ServerEnv`, with `insertMessageResult = .error ()` modelling a rejected
insert whose exception propagates to the catch in the socket `message`
listener (websocket/index.ts lines 21-29). -/

/-- Association-list `get`, the model of JavaScript `Map.get` (with
`none` for `undefined`). -/
def alGet {κ α : Type} [DecidableEq κ] : List (κ × α) → κ → Option α
  | [], _ => none
  | (k, v) :: rest, key => if k = key then some v else alGet rest key

/-- Association-list `set`, the model of JavaScript `Map.set` (and of
Dexie `put`): replace in place, else append. -/
def alPut {κ α : Type} [DecidableEq κ] : List (κ × α) → κ → α → List (κ × α)
  | [], key, v => [(key, v)]
  | (k, w) :: rest, key, v =>
      if k = key then (key, v) :: rest else (k, w) :: alPut rest key v

/-- Association-list removal, the model of JavaScript `Map.delete`. -/
def alRemove {κ α : Type} [DecidableEq κ] (l : List (κ × α)) (key : κ) :
    List (κ × α) :=
  l.filter (fun p => decide (p.1 ≠ key))

/-- Model of JavaScript `Set.add`: append when absent. -/
def setAdd {α : Type} [DecidableEq α] (l : List α) (x : α) : List α :=
  if x ∈ l then l else l ++ [x]

/-- Model of JavaScript `Set.delete`. -/
def setDel {α : Type} [DecidableEq α] (l : List α) (x : α) : List α :=
  l.filter (fun y => decide (y ≠ x))

/-- The per-socket record stored in `socketUsers` (websocket/index.ts
line 10). -/
structure ConnUser where
  userId : String
  channelIds : List String
deriving DecidableEq, Repr

/-- The two shared registries (websocket/index.ts lines 7-10). -/
structure ServerState where
  channelConnections : List (String × List Nat)
  socketUsers : List (Nat × ConnUser)
deriving DecidableEq, Repr

/-- Client-to-server envelopes, the cases of the `handleMessage` switch. -/
inductive ClientMsg
  | auth (userId : String)
  | channelJoin (channelId : String)
  | channelLeave (channelId : String)
  | messageSend (channelId : String) (ciphertext : String) (replyToId : Option String)
  | typingStart (channelId : String)
  | typingStop (channelId : String)
  | reactionAdd (messageId : String) (channelId : String) (emoji : String)
  | reactionRemove (reactionId : String) (channelId : String) (messageId : String)
      (emoji : String)
deriving DecidableEq, Repr

/-- Server-to-client envelopes. -/
inductive ServerEnvelope
  | authSuccess
  | channelJoined (channelId : String)
  | messageNew (id : String) (channelId : String) (senderId : String)
      (senderDisplayName : Option String) (ciphertext : String)
      (replyToId : Option String) (createdAt : String)
  | typingUpdate (channelId : String) (userId : String) (isTyping : Bool)
  | reactionAdded (reactionId : String) (messageId : String) (userId : String)
      (emoji : String)
  | reactionRemoved (reactionId : String) (messageId : String) (userId : String)
      (emoji : String)
  | errorMsg (message : String)
deriving DecidableEq, Repr

/-- The storage collaborator and socket readiness, as seen by one handler
invocation: the outcome of the message insert, the sender display-name
lookup, the duplicate-reaction lookup, the id a reaction insert yields,
and which sockets report `readyState === OPEN`. -/
structure ServerEnv where
  insertMessageResult : Except Unit (String × String)
  senderDisplayName : String → Option String
  reactionExists : String → String → String → Bool
  insertReactionId : String
  isOpen : Nat → Bool

/-- Model of `broadcastToChannel` (websocket/index.ts lines 247-259):
send to every subscriber of the channel that is open and distinct from
the excluded socket. -/
def broadcastToChannel (st : ServerState) (channelId : String)
    (envl : ServerEnvelope) (excludeSocket : Option Nat) (isOpen : Nat → Bool) :
    List (Nat × ServerEnvelope) :=
  match alGet st.channelConnections channelId with
  | none => []
  | some conns =>
      (conns.filter (fun c => decide (some c ≠ excludeSocket) && isOpen c)).map
        (fun c => (c, envl))

/-- Model of `handleMessage` (websocket/index.ts lines 37-231).  The
result is the updated registries plus the list of `(socket, envelope)`
sends; `.error ()` models an exception escaping the handler (only the
message-insert `await` can throw here). -/
def handleMessage (env : ServerEnv) (st : ServerState) (socket : Nat) :
    ClientMsg → Except Unit (ServerState × List (Nat × ServerEnvelope))
  | .auth userId =>
      .ok ({ st with socketUsers := alPut st.socketUsers socket ⟨userId, []⟩ },
        [(socket, .authSuccess)])
  | .channelJoin channelId =>
      match alGet st.socketUsers socket with
      | none => .ok (st, [(socket, .errorMsg "Not authenticated")])
      | some user =>
          let conns := (alGet st.channelConnections channelId).getD []
          .ok ({ channelConnections :=
                   alPut st.channelConnections channelId (setAdd conns socket),
                 socketUsers := alPut st.socketUsers socket
                   ⟨user.userId, setAdd user.channelIds channelId⟩ },
            [(socket, .channelJoined channelId)])
  | .channelLeave channelId =>
      match alGet st.socketUsers socket with
      | none => .ok (st, [])
      | some user =>
          .ok ({ channelConnections :=
                   (match alGet st.channelConnections channelId with
                    | some conns =>
                        alPut st.channelConnections channelId (setDel conns socket)
                    | none => st.channelConnections),
                 socketUsers := alPut st.socketUsers socket
                   ⟨user.userId, setDel user.channelIds channelId⟩ }, [])
  | .messageSend channelId ciphertext replyToId =>
      match alGet st.socketUsers socket with
      | none => .ok (st, [(socket, .errorMsg "Not authenticated")])
      | some user =>
          match env.insertMessageResult with
          | .error _ => .error ()
          | .ok (msgId, createdAt) =>
              let sends :=
                match alGet st.channelConnections channelId with
                | none => []
                | some conns =>
                    (conns.filter env.isOpen).map (fun c =>
                      (c, ServerEnvelope.messageNew msgId channelId user.userId
                        (env.senderDisplayName user.userId) ciphertext replyToId
                        createdAt))
              .ok (st, sends)
  | .typingStart channelId =>
      match alGet st.socketUsers socket with
      | none => .ok (st, [])
      | some user =>
          .ok (st, broadcastToChannel st channelId
            (.typingUpdate channelId user.userId true) (some socket) env.isOpen)
  | .typingStop channelId =>
      match alGet st.socketUsers socket with
      | none => .ok (st, [])
      | some user =>
          .ok (st, broadcastToChannel st channelId
            (.typingUpdate channelId user.userId false) (some socket) env.isOpen)
  | .reactionAdd messageId channelId emoji =>
      match alGet st.socketUsers socket with
      | none => .ok (st, [(socket, .errorMsg "Not authenticated")])
      | some user =>
          if env.reactionExists messageId user.userId emoji then
            .ok (st, [(socket, .errorMsg "Reaction already exists")])
          else
            .ok (st, broadcastToChannel st channelId
              (.reactionAdded env.insertReactionId messageId user.userId emoji)
              none env.isOpen)
  | .reactionRemove reactionId channelId messageId emoji =>
      match alGet st.socketUsers socket with
      | none => .ok (st, [(socket, .errorMsg "Not authenticated")])
      | some user =>
          .ok (st, broadcastToChannel st channelId
            (.reactionRemoved reactionId messageId user.userId emoji)
            none env.isOpen)

/-- The socket `message` listener (websocket/index.ts lines 21-29): run
the handler; an exception produces an error envelope to the very socket
the message came from. -/
def onSocketMessage (env : ServerEnv) (st : ServerState) (socket : Nat)
    (msg : ClientMsg) : ServerState × List (Nat × ServerEnvelope) :=
  match handleMessage env st socket msg with
  | .ok r => r
  | .error _ => (st, [(socket, .errorMsg "Invalid message format")])

/-- Model of `handleDisconnect` (websocket/index.ts lines 233-245): for
every channel in the connection's own `channelIds` record, drop the socket
from the subscriber set, then drop the socket from the registry. -/
def handleDisconnect (st : ServerState) (socket : Nat) : ServerState :=
  match alGet st.socketUsers socket with
  | none => st
  | some user =>
      { channelConnections :=
          user.channelIds.foldl (fun acc channelId =>
            match alGet acc channelId with
            | some conns => alPut acc channelId (setDel conns socket)
            | none => acc) st.channelConnections,
        socketUsers := alRemove st.socketUsers socket }

/-- A concrete environment for closed evaluations: the insert succeeds
with id `"m1"` at `"t0"`, no display names, no duplicate reactions, all
sockets open. -/
def demoEnv : ServerEnv :=
  { insertMessageResult := .ok ("m1", "t0")
    senderDisplayName := fun _ => none
    reactionExists := fun _ _ _ => false
    insertReactionId := "r1"
    isOpen := fun _ => true }

/-- Tagging every subscriber with one fixed envelope preserves counts:
a socket receives the envelope as often as it occurs in the subscriber
list. -/
theorem count_pair_map (l : List Nat) (e : ServerEnvelope) (conn : Nat) :
    ((l.map (fun c => (c, e))).count (conn, e)) = l.count conn := by
  induction l with
  | nil => rfl
  | cons a t ih =>
      simp only [List.map_cons, List.count_cons, ih]
      by_cases h : conn = a
      · simp [h]
      · simp [h, Prod.ext_iff]

/-- Claim C5: a `message:send` from an authenticated socket is persisted
before any fan-out.  If persistence fails, the handler aborts and exactly
one error envelope goes back to the sender, with no `message:new` to
anyone and no registry change.  If persistence succeeds, every socket
currently subscribed to the channel (the sender included when subscribed)
receives the `message:new` envelope exactly once, a socket not in the
subscriber set receives it zero times, and the fan-out list is exactly
the subscriber list tagged with the envelope. -/
theorem messageSend_persist_and_fanout
    (env : ServerEnv) (st : ServerState) (s : Nat) (user : ConnUser)
    (C ct : String) (reply : Option String) (subs : List Nat)
    (hauth : alGet st.socketUsers s = some user)
    (hsubs : (alGet st.channelConnections C).getD [] = subs)
    (hnodup : subs.Nodup)
    (hopen : ∀ c ∈ subs, env.isOpen c = true) :
    (env.insertMessageResult = .error () →
      onSocketMessage env st s (.messageSend C ct reply) =
        (st, [(s, .errorMsg "Invalid message format")])) ∧
    (∀ msgId createdAt, env.insertMessageResult = .ok (msgId, createdAt) →
      onSocketMessage env st s (.messageSend C ct reply) =
        (st, subs.map (fun c => (c, ServerEnvelope.messageNew msgId C user.userId
          (env.senderDisplayName user.userId) ct reply createdAt))) ∧
      ∀ conn : Nat,
        ((onSocketMessage env st s (.messageSend C ct reply)).2.count
          (conn, ServerEnvelope.messageNew msgId C user.userId
            (env.senderDisplayName user.userId) ct reply createdAt)) =
          if conn ∈ subs then 1 else 0) := by
  constructor
  · intro hfail
    simp [onSocketMessage, handleMessage, hauth, hfail]
  · intro msgId createdAt hok
    have hsends : onSocketMessage env st s (.messageSend C ct reply) =
        (st, subs.map (fun c => (c, ServerEnvelope.messageNew msgId C user.userId
          (env.senderDisplayName user.userId) ct reply createdAt))) := by
      cases halg : alGet st.channelConnections C with
      | none =>
          have : subs = [] := by simpa [halg] using hsubs.symm
          simp [onSocketMessage, handleMessage, hauth, hok, halg, this]
      | some conns =>
          have hc : conns = subs := by simpa [halg] using hsubs
          subst hc
          have hfilter : conns.filter env.isOpen = conns :=
            List.filter_eq_self.2 (fun c hc => hopen c hc)
          simp [onSocketMessage, handleMessage, hauth, hok, halg, hfilter]
    refine ⟨hsends, ?_⟩
    intro conn
    rw [hsends]
    simp only [count_pair_map]
    by_cases hmem : conn ∈ subs
    · simp [hmem, List.count_eq_one_of_mem hnodup hmem]
    · simp [hmem, List.count_eq_zero_of_not_mem hmem]

/-- The sample state for the fan-out witness: sockets 1 and 2 subscribe
to channel `"C"`, socket 3 only to channel `"D"`. -/
def fanoutState : ServerState :=
  { channelConnections := [("C", [1, 2]), ("D", [3])]
    socketUsers := [(1, ⟨"u", ["C"]⟩), (2, ⟨"v", ["C"]⟩), (3, ⟨"w", ["D"]⟩)] }

/-- Concrete instance of C5: socket 1 sends on `"C"`; sockets 1 and 2
each receive the `message:new` envelope exactly once and socket 3, which
is subscribed only to `"D"`, receives it zero times. -/
theorem messageSend_persist_and_fanout_witness :
    onSocketMessage demoEnv fanoutState 1 (.messageSend "C" "blob" none) =
      (fanoutState,
        [(1, ServerEnvelope.messageNew "m1" "C" "u" none "blob" none "t0"),
         (2, ServerEnvelope.messageNew "m1" "C" "u" none "blob" none "t0")]) ∧
    ((onSocketMessage demoEnv fanoutState 1 (.messageSend "C" "blob" none)).2.count
      (3, ServerEnvelope.messageNew "m1" "C" "u" none "blob" none "t0")) = 0 := by
  have h := (messageSend_persist_and_fanout demoEnv fanoutState 1 ⟨"u", ["C"]⟩
    "C" "blob" none [1, 2] (by decide) (by decide) (by decide)
    (by intro c hc; rfl)).2 "m1" "t0" rfl
  exact ⟨h.1, by rw [h.1]; decide⟩

/-- Claim C6, as amended: on a socket with no `socketUsers` entry, the
four guarded envelope types (`channel:join`, `message:send`,
`reaction:add`, `reaction:remove`) are answered with a `"Not
authenticated"` error envelope, while `channel:leave`, `typing:start` and
`typing:stop` are silently dropped with no reply at all; in every case the
registries are unchanged and the socket is not closed (the handler has no
close operation). -/
theorem unauthenticated_handling
    (env : ServerEnv) (st : ServerState) (s : Nat)
    (ch ct mId rId emoji : String) (reply : Option String)
    (hunauth : alGet st.socketUsers s = none) :
    onSocketMessage env st s (.channelJoin ch) =
      (st, [(s, .errorMsg "Not authenticated")]) ∧
    onSocketMessage env st s (.messageSend ch ct reply) =
      (st, [(s, .errorMsg "Not authenticated")]) ∧
    onSocketMessage env st s (.reactionAdd mId ch emoji) =
      (st, [(s, .errorMsg "Not authenticated")]) ∧
    onSocketMessage env st s (.reactionRemove rId ch mId emoji) =
      (st, [(s, .errorMsg "Not authenticated")]) ∧
    onSocketMessage env st s (.channelLeave ch) = (st, []) ∧
    onSocketMessage env st s (.typingStart ch) = (st, []) ∧
    onSocketMessage env st s (.typingStop ch) = (st, []) := by
  refine ⟨?_, ?_, ?_, ?_, ?_, ?_, ?_⟩ <;>
    simp [onSocketMessage, handleMessage, hunauth]

/-- Concrete instance of the amended C6 at the empty state. -/
theorem unauthenticated_handling_witness :
    onSocketMessage demoEnv ⟨[], []⟩ 0 (.channelJoin "c") =
      (⟨[], []⟩, [(0, .errorMsg "Not authenticated")]) :=
  (unauthenticated_handling demoEnv ⟨[], []⟩ 0 "c" "x" "m" "r" "e" none
    (by decide)).1

/-- Counterexample to claim C6 as stated: an unauthenticated
`channel:leave` (and likewise `typing:start` / `typing:stop`) produces NO
reply whatsoever — the claim says every non-auth envelope on an
unauthenticated connection is answered with an error envelope, but the
source guards these three cases with a bare `if (user)` and sends
nothing. -/
theorem unauthenticated_leave_sends_nothing :
    onSocketMessage demoEnv ⟨[], []⟩ 0 (.channelLeave "c") = (⟨[], []⟩, []) ∧
    onSocketMessage demoEnv ⟨[], []⟩ 0 (.typingStart "c") = (⟨[], []⟩, []) ∧
    onSocketMessage demoEnv ⟨[], []⟩ 0 (.typingStop "c") = (⟨[], []⟩, []) := by
  decide

/-- Claim C7 is violated by the code: after `auth`, `channel:join "c"`,
a replayed `auth` (tolerated as rebinding, but it resets the recorded
`channelIds` to the empty set without touching `channelConnections`), the
disconnect removes socket 7 from the registry yet leaves it in channel
`"c"`'s subscriber set — a closed connection is retained, contradicting
the claim and spec section 4.5.  Supports the code_bug verdict. -/
theorem disconnect_after_auth_replay_leaks_subscription :
    handleDisconnect
      (onSocketMessage demoEnv
        (onSocketMessage demoEnv
          (onSocketMessage demoEnv ⟨[], []⟩ 7 (.auth "u")).1
          7 (.channelJoin "c")).1
        7 (.auth "u")).1 7 =
      ⟨[("c", [7])], []⟩ := by
  decide

/-- Without an auth replay the disconnect does clean up: the same
scenario minus the second `auth` leaves the subscriber set empty and the
registry empty — the leak is specifically tied to rebinding. -/
theorem disconnect_without_replay_cleans_up :
    handleDisconnect
      (onSocketMessage demoEnv
        (onSocketMessage demoEnv ⟨[], []⟩ 7 (.auth "u")).1
        7 (.channelJoin "c")).1 7 =
      ⟨[("c", [])], []⟩ := by
  decide

/-! ## Key-bundle endpoint (apps/server/src/routes/auth.ts lines 106-133)

`GET /users/:userId/keys` looks the user up and then runs
`db.delete(preKeys).where(eq(preKeys.userId, userId)).returning()` — a
delete with no limit, so it removes EVERY prekey row of that user and
destructures only the first returned row into the bundle. -/

/-- A row of the `pre_keys` table. -/
structure PreKeyRow where
  userId : String
  keyId : String
  publicKey : String
deriving DecidableEq, Repr

/-- The columns of the `users` table the endpoint reads. -/
structure UserRow where
  id : String
  identityKeyPublic : String
  signedPreKeyPublic : String
  signedPreKeySignature : String
deriving DecidableEq, Repr

/-- The tables the endpoint touches. -/
structure KeysDb where
  users : List UserRow
  preKeys : List PreKeyRow
deriving DecidableEq, Repr

/-- The response body of `GET /users/:userId/keys`. -/
structure KeyBundle where
  identityKey : String
  signedPreKeyPublicKey : String
  signedPreKeySignature : String
  preKey : Option (String × String)
deriving DecidableEq, Repr

instance {ε α : Type} [DecidableEq ε] [DecidableEq α] :
    DecidableEq (Except ε α) := fun x y =>
  match x, y with
  | .ok a, .ok b =>
      if h : a = b then isTrue (by rw [h]) else isFalse (by simp [h])
  | .error a, .error b =>
      if h : a = b then isTrue (by rw [h]) else isFalse (by simp [h])
  | .ok _, .error _ => isFalse (by simp)
  | .error _, .ok _ => isFalse (by simp)

/-- Model of the `GET /users/:userId/keys` handler (auth.ts lines
106-133): find the user (404 as `.error`), delete every prekey row whose
`userId` matches — the drizzle delete has no limit — take the first
deleted row as the bundle's one-time prekey, `null` when none. -/
def getUserKeysRoute (db : KeysDb) (userId : String) :
    Except Unit KeyBundle × KeysDb :=
  match db.users.find? (fun u => u.id == userId) with
  | none => (.error (), db)
  | some user =>
      let deleted := db.preKeys.filter (fun pk => pk.userId == userId)
      let remaining := db.preKeys.filter (fun pk => !(pk.userId == userId))
      ( .ok { identityKey := user.identityKeyPublic
              signedPreKeyPublicKey := user.signedPreKeyPublic
              signedPreKeySignature := user.signedPreKeySignature
              preKey := deleted.head?.map (fun pk => (pk.keyId, pk.publicKey)) },
        { db with preKeys := remaining } )

/-- The sample database for the C1 refutation: user `"u"` registered with
N = 2 one-time prekeys. -/
def twoPreKeyDb : KeysDb :=
  { users := [{ id := "u", identityKeyPublic := "ik", signedPreKeyPublic := "spk",
                signedPreKeySignature := "sig" }]
    preKeys := [⟨"u", "0", "pk0"⟩, ⟨"u", "1", "pk1"⟩] }

/-- Claim C1 is violated by the code: with user `"u"` registered with two
one-time prekeys, the FIRST bundle fetch already deletes the entire pool
(the delete has no limit), so the second fetch returns `oneTimePreKey =
null` even though the claim requires the first two fetches to each return
a distinct prekey and only the third to come up null.  Supports the
code_bug verdict. -/
theorem getUserKeysRoute_drains_pool_on_first_fetch :
    (getUserKeysRoute twoPreKeyDb "u").1 =
      .ok { identityKey := "ik", signedPreKeyPublicKey := "spk",
            signedPreKeySignature := "sig", preKey := some ("0", "pk0") } ∧
    ((getUserKeysRoute twoPreKeyDb "u").2).preKeys = [] ∧
    (getUserKeysRoute ((getUserKeysRoute twoPreKeyDb "u").2) "u").1 =
      .ok { identityKey := "ik", signedPreKeyPublicKey := "spk",
            signedPreKeySignature := "sig", preKey := none } := by
  decide

/-! ## Sender-key distribution routes (channel routes)

`POST /sender-keys` first deletes every `sender_keys` row matching
`(channelId, userId)` — the distributor pair — then inserts the new
round's rows (skipping the insert when the round is empty).
`GET /:channelId/sender-keys/:userId` returns every row of the channel
addressed to the recipient, across all distributors. -/

/-- A row of the `sender_keys` table. -/
structure SenderKeyRow where
  channelId : String
  userId : String
  distributionId : String
  encryptedKey : String
  forUserId : String
deriving DecidableEq, Repr

/-- The request body of `POST /sender-keys`; `encryptedKeys` pairs are
`(forUserId, encryptedKey)`. -/
structure DistributeBody where
  channelId : String
  userId : String
  distributionId : String
  encryptedKeys : List (String × String)
deriving DecidableEq, Repr

/-- Model of the `POST /sender-keys` handler: delete the distributor's
prior rows for the channel, then append the new round. -/
def submitSenderKeys (rows : List SenderKeyRow) (body : DistributeBody) :
    List SenderKeyRow :=
  let afterDelete := rows.filter (fun r =>
    !(r.channelId == body.channelId && r.userId == body.userId))
  if body.encryptedKeys.isEmpty then afterDelete
  else afterDelete ++ body.encryptedKeys.map (fun ek =>
    { channelId := body.channelId, userId := body.userId,
      distributionId := body.distributionId, encryptedKey := ek.2,
      forUserId := ek.1 })

/-- Model of the `GET /:channelId/sender-keys/:userId` handler: all rows
of the channel addressed to the recipient. -/
def getSenderKeysRoute (rows : List SenderKeyRow) (channelId forUserId : String) :
    List SenderKeyRow :=
  rows.filter (fun r => r.channelId == channelId && r.forUserId == forUserId)

/-- Membership in the table after a distribution round: a row is either a
surviving old row of a different `(channelId, distributor)` pair, or one
of the round's own rows. -/
theorem mem_submitSenderKeys (rows : List SenderKeyRow) (body : DistributeBody)
    (r : SenderKeyRow) :
    r ∈ submitSenderKeys rows body ↔
      (r ∈ rows ∧ ¬(r.channelId = body.channelId ∧ r.userId = body.userId)) ∨
      ∃ ek ∈ body.encryptedKeys,
        r = { channelId := body.channelId, userId := body.userId,
              distributionId := body.distributionId, encryptedKey := ek.2,
              forUserId := ek.1 } := by
  unfold submitSenderKeys
  by_cases h : body.encryptedKeys.isEmpty
  · rw [List.isEmpty_iff] at h
    simp only [h, List.isEmpty_nil, if_pos, List.mem_filter, List.not_mem_nil,
      false_and, exists_false, or_false, Bool.not_eq_true', Bool.and_eq_false_iff,
      beq_eq_false_iff_ne, ne_eq, not_and]
    tauto
  · simp only [h, if_neg, Bool.false_eq_true, not_false_eq_true, List.mem_append,
      List.mem_filter, List.mem_map, Bool.not_eq_true', Bool.and_eq_false_iff,
      beq_eq_false_iff_ne, ne_eq]
    constructor
    · rintro (⟨hr, hne⟩ | ⟨ek, hek, hrek⟩)
      · exact .inl ⟨hr, by tauto⟩
      · exact .inr ⟨ek, hek, hrek.symm⟩
    · rintro (⟨hr, hne⟩ | ⟨ek, hek, hrek⟩)
      · exact .inl ⟨hr, by tauto⟩
      · exact .inr ⟨ek, hek, hrek.symm⟩

/-- Claim C8: a distribution round for `(channelId, distributorUserId)`
with recipient set X (a) removes every previously stored row of that pair
whose recipient is not in X, (b) makes any later fetch return, among that
distributor's rows, only rows of the new round (its distributionId and
one of its `(recipient, wrappedKey)` pairs), and (c) leaves rows of other
distributors — and other channels — exactly unchanged. -/
theorem submitSenderKeys_replaces_prior_rows
    (rows : List SenderKeyRow) (body : DistributeBody) :
    (∀ r ∈ rows, r.channelId = body.channelId → r.userId = body.userId →
      r.forUserId ∉ body.encryptedKeys.map Prod.fst →
      r ∉ submitSenderKeys rows body) ∧
    (∀ recipient r,
      r ∈ getSenderKeysRoute (submitSenderKeys rows body) body.channelId recipient →
      r.userId = body.userId →
      r.distributionId = body.distributionId ∧
        (r.forUserId, r.encryptedKey) ∈ body.encryptedKeys) ∧
    ((submitSenderKeys rows body).filter (fun r =>
        !(r.channelId == body.channelId && r.userId == body.userId)) =
      rows.filter (fun r =>
        !(r.channelId == body.channelId && r.userId == body.userId))) := by
  refine ⟨?_, ?_, ?_⟩
  · intro r hr hch hu hfor hmem
    rcases (mem_submitSenderKeys rows body r).1 hmem with ⟨_, hne⟩ | ⟨ek, hek, hrek⟩
    · exact hne ⟨hch, hu⟩
    · exact hfor (by
        subst hrek
        exact List.mem_map.2 ⟨ek, hek, rfl⟩)
  · intro recipient r hfetch hu
    have hmem : r ∈ submitSenderKeys rows body :=
      (List.mem_filter.1 hfetch).1
    have hch : r.channelId = body.channelId := by
      have := (List.mem_filter.1 hfetch).2
      simp only [Bool.and_eq_true, beq_iff_eq] at this
      exact this.1
    rcases (mem_submitSenderKeys rows body r).1 hmem with ⟨_, hne⟩ | ⟨ek, hek, hrek⟩
    · exact absurd ⟨hch, hu⟩ hne
    · subst hrek
      exact ⟨rfl, by simpa using hek⟩
  · unfold submitSenderKeys
    by_cases h : body.encryptedKeys.isEmpty
    · simp only [h, if_pos]
      rw [List.filter_filter]
      simp
    · simp only [h, Bool.false_eq_true, not_false_eq_true, if_neg,
        List.filter_append]
      rw [List.filter_filter]
      have hnew : (body.encryptedKeys.map (fun ek =>
          ({ channelId := body.channelId, userId := body.userId,
             distributionId := body.distributionId, encryptedKey := ek.2,
             forUserId := ek.1 } : SenderKeyRow))).filter (fun r =>
          !(r.channelId == body.channelId && r.userId == body.userId)) = [] := by
        rw [List.filter_eq_nil_iff]
        intro a ha
        rcases List.mem_map.1 ha with ⟨ek, _, hrek⟩
        subst hrek
        simp
      rw [hnew, List.append_nil]
      simp

/-- Concrete instance of C8: distributor `"d"` first distributes to
recipients `"x"` and `"y"` on channel `"c"`, then re-distributes to
`{"x"}` only; the stale `"y"` row is gone, a fetch for `"y"` sees nothing
from `"d"`, and a row by the other distributor `"e"` survives both
rounds untouched. -/
theorem submitSenderKeys_replaces_prior_rows_witness :
    (⟨"c", "d", "dist1", "ky", "y"⟩ : SenderKeyRow) ∉
      submitSenderKeys
        (submitSenderKeys [⟨"c", "e", "dist0", "ke", "x"⟩]
          ⟨"c", "d", "dist1", [("x", "kx"), ("y", "ky")]⟩)
        ⟨"c", "d", "dist2", [("x", "kx2")]⟩ ∧
    (submitSenderKeys
        (submitSenderKeys [⟨"c", "e", "dist0", "ke", "x"⟩]
          ⟨"c", "d", "dist1", [("x", "kx"), ("y", "ky")]⟩)
        ⟨"c", "d", "dist2", [("x", "kx2")]⟩).filter (fun r =>
          !(r.channelId == "c" && r.userId == "d")) =
      [⟨"c", "e", "dist0", "ke", "x"⟩] := by
  constructor
  · exact (submitSenderKeys_replaces_prior_rows
      (submitSenderKeys [⟨"c", "e", "dist0", "ke", "x"⟩]
        ⟨"c", "d", "dist1", [("x", "kx"), ("y", "ky")]⟩)
      ⟨"c", "d", "dist2", [("x", "kx2")]⟩).1
      ⟨"c", "d", "dist1", "ky", "y"⟩ (by decide) rfl rfl (by decide)
  · have h := (submitSenderKeys_replaces_prior_rows
      (submitSenderKeys [⟨"c", "e", "dist0", "ke", "x"⟩]
        ⟨"c", "d", "dist1", [("x", "kx"), ("y", "ky")]⟩)
      ⟨"c", "d", "dist2", [("x", "kx2")]⟩).2.2
    rw [h]
    decide

/-! ## Channel key broker (apps/web/src/lib/channelCrypto.ts lines 32-162)

`ensureChannelKey` runs: local lookup, identity check, a try-block that
fetches remote distribution records addressed to the caller and unwraps
the first one, and — when the lookup is empty or anything in the try-block
throws — generation of a fresh key, local persistence, and distribution to
the member roster.  Remote calls and the random draws are supplied through
`ClientEnv`; the returned event list records, in program order, the key
generation, each local store write and the distribution submit, so that
ordering claims ("persist before distribute") are visible in the result. -/

/-- One row of the `getSenderKeys` response (already filtered server-side
to rows addressed to the caller): the distributor and the wrapped key. -/
structure SenderKeyRec where
  userId : String
  encryptedKey : List Nat
deriving DecidableEq, Repr

/-- The response of `api.auth.getUserKeys` consumed by the broker. -/
structure FetchedUserKeys where
  identityKey : List Nat
  signedPreKeyPublicKey : List Nat
deriving DecidableEq, Repr

/-- A row of the local `userKeys` table (keyStore.ts lines 34-38). -/
structure StoredUserKey where
  userId : String
  identityKeyPublic : List Nat
  signedPreKeyPublic : List Nat
deriving DecidableEq, Repr

/-- The local identity record as `getIdentityKeys` returns it, with the
private key already imported. -/
structure ClientIdentity (Priv : Type) where
  userId : String
  identityPrivateKey : Priv
deriving DecidableEq

/-- The local Dexie key store as the broker sees it. -/
structure ClientKeyStore (Priv : Type) where
  identity : Option (ClientIdentity Priv)
  channelKeys : List (String × List Nat)
  userKeys : List (String × StoredUserKey)
deriving DecidableEq

/-- The platform primitives, remote responses and random draws consumed
by one `ensureChannelKey` invocation. -/
structure ClientEnv (Priv Pub : Type) where
  aeadEncrypt : List Nat → List Nat → List Nat → List Nat
  aeadDecrypt : List Nat → List Nat → List Nat → Option (List Nat)
  importPubRaw : List Nat → Pub
  deriveSharedKey : Priv → Pub → List Nat
  getSenderKeys : Except Unit (List SenderKeyRec)
  getUserKeys : String → Option FetchedUserKeys
  freshChannelKey : List Nat
  freshDistributionId : String
  wrapIv : String → List Nat

/-- Observable actions of the broker, in program order. -/
inductive ClientEvent
  | generatedChannelKey (key : List Nat)
  | storedChannelKey (channelId : String) (keyBase64 : List Nat)
  | storedUserKey (userId : String)
  | submittedDistribution (channelId : String) (userId : String)
      (distributionId : String) (encryptedKeys : List (String × List Nat))
deriving DecidableEq, Repr

/-- The member loop of `distributeChannelKey` (channelCrypto.ts lines
122-151): resolve each member's public key from the cache, else fetch and
cache it; wrap the channel key for the member; a member whose fetch fails
is skipped (the per-member catch). -/
def wrapForMembers {Priv Pub : Type} (env : ClientEnv Priv Pub)
    (identityPrivateKey : Priv) (channelKey : List Nat) :
    ClientKeyStore Priv → List String →
      ClientKeyStore Priv × List ClientEvent × List (String × List Nat)
  | st, [] => (st, [], [])
  | st, m :: rest =>
      match alGet st.userKeys m with
      | some uk =>
          let wrapped := encryptChannelKeyForRecipient env.aeadEncrypt
            env.importPubRaw env.deriveSharedKey (env.wrapIv m) channelKey
            identityPrivateKey uk.identityKeyPublic
          let r := wrapForMembers env identityPrivateKey channelKey st rest
          (r.1, r.2.1, (m, wrapped) :: r.2.2)
      | none =>
          match env.getUserKeys m with
          | some fetched =>
              let st1 := { st with userKeys := (alPut st.userKeys m
                ⟨m, fetched.identityKey, fetched.signedPreKeyPublicKey⟩) }
              let wrapped := encryptChannelKeyForRecipient env.aeadEncrypt
                env.importPubRaw env.deriveSharedKey (env.wrapIv m) channelKey
                identityPrivateKey fetched.identityKey
              let r := wrapForMembers env identityPrivateKey channelKey st1 rest
              (r.1, .storedUserKey m :: r.2.1, (m, wrapped) :: r.2.2)
          | none => wrapForMembers env identityPrivateKey channelKey st rest

/-- Model of `distributeChannelKey` (channelCrypto.ts lines 108-162):
re-read the identity, wrap for every member, submit the accumulated set
in one call — skipped entirely when no wrap succeeded. -/
def distributeChannelKey {Priv Pub : Type} (env : ClientEnv Priv Pub)
    (st : ClientKeyStore Priv) (channelId : String) (channelKey : List Nat)
    (members : List String) (currentUserId : String) :
    Except Unit (ClientKeyStore Priv × List ClientEvent) :=
  match st.identity with
  | none => .error ()
  | some idr =>
      let r := wrapForMembers env idr.identityPrivateKey channelKey st members
      if r.2.2.isEmpty then .ok (r.1, r.2.1)
      else .ok (r.1, r.2.1 ++ [.submittedDistribution channelId currentUserId
        env.freshDistributionId r.2.2])

/-- The tail of `ensureChannelKey` (channelCrypto.ts lines 92-102):
generate a fresh key, store it locally FIRST, then distribute, and report
`isNew = true`.  `evs` carries events already emitted inside the aborted
try-block (a cached sender-key fetch that stored a user key before the
unwrap failed). -/
def generateAndDistribute {Priv Pub : Type} (env : ClientEnv Priv Pub)
    (st : ClientKeyStore Priv) (channelId : String) (members : List String)
    (currentUserId : String) (evs : List ClientEvent) :
    Except Unit ((List Nat × Bool) × ClientKeyStore Priv × List ClientEvent) :=
  let channelKey := env.freshChannelKey
  let keyBase64 := exportAesKey channelKey
  let st1 := { st with channelKeys := alPut st.channelKeys channelId keyBase64 }
  match distributeChannelKey env st1 channelId channelKey members currentUserId with
  | .error _ => .error ()
  | .ok (st2, evs2) =>
      .ok ((channelKey, true), st2,
        evs ++ [.generatedChannelKey channelKey,
                .storedChannelKey channelId keyBase64] ++ evs2)

/-- Model of `ensureChannelKey` (channelCrypto.ts lines 32-103).  Control
flow follows the source: local hit returns immediately; a missing
identity throws; the try-block takes the FIRST sender-key record, resolves
the distributor's public key (cache, else fetch-and-store), unwraps and
persists; an empty response, a failed response, a failed public-key fetch
or a failed unwrap all fall through to generate-and-distribute, keeping
whatever the try-block already wrote. -/
def ensureChannelKey {Priv Pub : Type} (env : ClientEnv Priv Pub)
    (st : ClientKeyStore Priv) (channelId : String) (members : List String)
    (currentUserId : String) :
    Except Unit ((List Nat × Bool) × ClientKeyStore Priv × List ClientEvent) :=
  match alGet st.channelKeys channelId with
  | some keyBase64 => .ok ((importAesKey keyBase64, false), st, [])
  | none =>
    match st.identity with
    | none => .error ()
    | some idr =>
      match env.getSenderKeys with
      | .ok (senderKey :: _) =>
          match alGet st.userKeys senderKey.userId with
          | some spk =>
              match decryptChannelKey env.aeadDecrypt env.importPubRaw
                  env.deriveSharedKey senderKey.encryptedKey idr.identityPrivateKey
                  spk.identityKeyPublic with
              | some channelKey =>
                  let keyBase64 := exportAesKey channelKey
                  .ok ((channelKey, false),
                    { st with channelKeys := alPut st.channelKeys channelId keyBase64 },
                    [.storedChannelKey channelId keyBase64])
              | none => generateAndDistribute env st channelId members currentUserId []
          | none =>
              match env.getUserKeys senderKey.userId with
              | some fetched =>
                  let st1 := { st with userKeys := (alPut st.userKeys senderKey.userId
                    ⟨senderKey.userId, fetched.identityKey,
                     fetched.signedPreKeyPublicKey⟩) }
                  match decryptChannelKey env.aeadDecrypt env.importPubRaw
                      env.deriveSharedKey senderKey.encryptedKey idr.identityPrivateKey
                      fetched.identityKey with
                  | some channelKey =>
                      let keyBase64 := exportAesKey channelKey
                      .ok ((channelKey, false),
                        { st1 with channelKeys := alPut st1.channelKeys channelId keyBase64 },
                        [.storedUserKey senderKey.userId,
                         .storedChannelKey channelId keyBase64])
                  | none => generateAndDistribute env st1 channelId members
                      currentUserId [.storedUserKey senderKey.userId]
              | none => generateAndDistribute env st channelId members currentUserId []
      | _ => generateAndDistribute env st channelId members currentUserId []

/-- When every member's public key is already cached, the member loop
leaves the store untouched, emits no events, and wraps the key for the
members in roster order. -/
theorem wrapForMembers_all_cached {Priv Pub : Type} (env : ClientEnv Priv Pub)
    (p : Priv) (channelKey : List Nat) (st : ClientKeyStore Priv)
    (members : List String) (ukOf : String → StoredUserKey)
    (hcache : ∀ m ∈ members, alGet st.userKeys m = some (ukOf m)) :
    wrapForMembers env p channelKey st members =
      (st, [], members.map (fun m =>
        (m, encryptChannelKeyForRecipient env.aeadEncrypt env.importPubRaw
          env.deriveSharedKey (env.wrapIv m) channelKey p
          (ukOf m).identityKeyPublic))) := by
  induction members with
  | nil => rfl
  | cons m rest ih =>
      have h1 := hcache m (List.mem_cons_self m rest)
      have h2 := ih (fun x hx => hcache x (List.mem_cons_of_mem m hx))
      simp [wrapForMembers, h1, h2]

/-- Claim C4, both branches of `ensureChannelKey`.  First: a channel key
already in local storage is returned with `isNew = false`, the store is
unchanged, and no event happens — nothing is generated, stored or
distributed.  Second: with no local key, no remote distribution record
addressed to the caller, and every roster member's public key resolvable
(cached), the fresh random key is returned with `isNew = true` and the
event trace is exactly: generate, persist locally, then submit one
distribution round whose recipients are exactly the member roster —
persistence strictly precedes distribution. -/
theorem ensureChannelKey_spec :
    (∀ (Priv Pub : Type) (env : ClientEnv Priv Pub) (st : ClientKeyStore Priv)
      (channelId currentUserId : String) (members : List String)
      (keyBase64 : List Nat),
      alGet st.channelKeys channelId = some keyBase64 →
      ensureChannelKey env st channelId members currentUserId =
        .ok ((importAesKey keyBase64, false), st, [])) ∧
    (∀ (Priv Pub : Type) (env : ClientEnv Priv Pub) (st : ClientKeyStore Priv)
      (channelId currentUserId : String) (members : List String)
      (idr : ClientIdentity Priv) (ukOf : String → StoredUserKey),
      alGet st.channelKeys channelId = none →
      st.identity = some idr →
      env.getSenderKeys = .ok [] →
      (∀ m ∈ members, alGet st.userKeys m = some (ukOf m)) →
      members ≠ [] →
      ensureChannelKey env st channelId members currentUserId =
        .ok ((env.freshChannelKey, true),
          { st with channelKeys := (alPut st.channelKeys channelId
              (exportAesKey env.freshChannelKey)) },
          [.generatedChannelKey env.freshChannelKey,
           .storedChannelKey channelId (exportAesKey env.freshChannelKey),
           .submittedDistribution channelId currentUserId env.freshDistributionId
             (members.map (fun m => (m, encryptChannelKeyForRecipient
               env.aeadEncrypt env.importPubRaw env.deriveSharedKey (env.wrapIv m)
               env.freshChannelKey idr.identityPrivateKey
               (ukOf m).identityKeyPublic)))])) := by
  constructor
  · intro Priv Pub env st channelId currentUserId members keyBase64 hlocal
    simp [ensureChannelKey, hlocal]
  · intro Priv Pub env st channelId currentUserId members idr ukOf
      hlocal hid hremote hcache hne
    obtain ⟨ident, cks, uks⟩ := st
    dsimp only at hid hlocal hcache ⊢
    subst hid
    have hwrap := wrapForMembers_all_cached env idr.identityPrivateKey
      env.freshChannelKey
      ⟨some idr, alPut cks channelId (exportAesKey env.freshChannelKey), uks⟩
      members ukOf hcache
    have hne2 : (members.map (fun m => (m, encryptChannelKeyForRecipient
        env.aeadEncrypt env.importPubRaw env.deriveSharedKey (env.wrapIv m)
        env.freshChannelKey idr.identityPrivateKey
        (ukOf m).identityKeyPublic))).isEmpty = false := by
      cases members with
      | nil => exact absurd rfl hne
      | cons a t => rfl
    have hne3 : (members.map (fun m => (m, encryptChannelKeyForRecipient
        env.aeadEncrypt env.importPubRaw env.deriveSharedKey (env.wrapIv m)
        env.freshChannelKey idr.identityPrivateKey
        (ukOf m).identityKeyPublic))) ≠ [] := by
      cases members with
      | nil => exact absurd rfl hne
      | cons a t => simp
    simp [ensureChannelKey, hlocal, hremote, generateAndDistribute,
      distributeChannelKey, hwrap, hne2, hne3]

/-- The concrete broker environment for the C4 witness: no remote
distribution record, fresh key `[9]`, distribution id `"dist"`, transparent
AEAD, additive key agreement. -/
def demoClientEnv : ClientEnv Nat Nat :=
  { aeadEncrypt := fun _ _ d => d
    aeadDecrypt := fun _ _ c => some c
    importPubRaw := fun l => l.headD 0
    deriveSharedKey := fun a b => [a + b]
    getSenderKeys := .ok []
    getUserKeys := fun _ => none
    freshChannelKey := [9]
    freshDistributionId := "dist"
    wrapIv := fun _ => List.replicate 12 0 }

/-- The concrete local store for the C4 witness: identity present, no
channel key, member `"m1"` cached. -/
def demoUserKey : StoredUserKey := ⟨"m1", arrayBufferToBase64 [5], []⟩

/-- The local store used by the C4 witness. -/
def demoClientStore : ClientKeyStore Nat :=
  { identity := some ⟨"self", 3⟩
    channelKeys := []
    userKeys := [("m1", demoUserKey)] }

/-- Concrete instance of C4 branch two (and, on a second store that
already holds a key for `"c"`, of branch one). -/
theorem ensureChannelKey_spec_witness :
    ensureChannelKey demoClientEnv demoClientStore "c" ["m1"] "self" =
      .ok (([9], true),
        { demoClientStore with channelKeys := (alPut demoClientStore.channelKeys
            "c" (exportAesKey [9])) },
        [.generatedChannelKey [9],
         .storedChannelKey "c" (exportAesKey [9]),
         .submittedDistribution "c" "self" "dist"
           (["m1"].map (fun m => (m, encryptChannelKeyForRecipient
             demoClientEnv.aeadEncrypt demoClientEnv.importPubRaw
             demoClientEnv.deriveSharedKey (demoClientEnv.wrapIv m) [9] 3
             demoUserKey.identityKeyPublic)))]) ∧
    ensureChannelKey demoClientEnv
      { demoClientStore with channelKeys := [("c", arrayBufferToBase64 [9])] }
      "c" ["m1"] "self" =
      .ok ((importAesKey (arrayBufferToBase64 [9]), false),
        { demoClientStore with channelKeys := [("c", arrayBufferToBase64 [9])] },
        []) := by
  constructor
  · exact ensureChannelKey_spec.2 Nat Nat demoClientEnv demoClientStore "c" "self"
      ["m1"] ⟨"self", 3⟩ (fun _ => demoUserKey) rfl rfl rfl
      (by
        intro m hm
        rcases List.mem_singleton.1 hm with rfl
        rfl)
      (by decide)
  · exact ensureChannelKey_spec.1 Nat Nat demoClientEnv
      { demoClientStore with channelKeys := [("c", arrayBufferToBase64 [9])] }
      "c" "self" ["m1"] (arrayBufferToBase64 [9]) rfl
